import Mathlib

/-!
Verification development for the provably-fair bet settlement core of the
mu-gamble repository.

Modelling conventions:
* JavaScript numbers are modelled as exact rationals (`ℚ`); all amounts,
  multipliers and game results in the settlement core are small decimals for
  which rational arithmetic matches the intended two-decimal fixed point
  semantics of the spec.
* The Node `crypto` primitives (`createHash('sha256')`, `createHmac('sha256')`)
  are external library calls, not repository code; they are modelled as an
  abstract deterministic `CryptoPrim` bundle of hex-digest functions, passed
  as a parameter to every definition that uses them.  All claims proved here
  hold for every such bundle; concrete instances are used to evaluate the
  model on explicit inputs.
* The Drizzle/SQLite transaction is modelled as explicit state passing with
  `Except`: a thrown error makes the whole transaction roll back, so the
  caller resumes with the unchanged pre-transaction state.
* `betId` (`crypto.randomUUID()`) and timestamps are irrelevant to every
  claim and are omitted from the bet record.
-/

/-- Abstract model of the Node crypto primitives used by `provably-fair.ts`:
`sha256Hex s` is the hex digest of SHA-256 over `s`, and `hmacSha256Hex k m`
is the hex digest of HMAC-SHA256 with key `k` over message `m`.  Both are
deterministic functions of their inputs, which is all the settlement core
relies on. -/
structure CryptoPrim where
  sha256Hex : String → String
  hmacSha256Hex : String → String → String

/-- Value of one hex digit character (by code point), `none` for a non-hex
character, mirroring the digit handling of JavaScript `parseInt(_, 16)`. -/
def hexVal (c : Char) : Option Nat :=
  let n := c.toNat
  if 48 ≤ n ∧ n ≤ 57 then some (n - 48)
  else if 97 ≤ n ∧ n ≤ 102 then some (n - 97 + 10)
  else if 65 ≤ n ∧ n ≤ 70 then some (n - 65 + 10)
  else none

/-- Accumulator form of hex parsing: consume hex digits left to right,
stopping at the first non-hex character. -/
def parseHexAcc : List Char → Nat → Nat
  | [], acc => acc
  | c :: cs, acc =>
    match hexVal c with
    | some v => parseHexAcc cs (acc * 16 + v)
    | none => acc

/-- Model of `parseInt(hash.substring(0, 8), 16)` on a hex digest string:
parse the first 8 characters as a base-16 unsigned integer. -/
def parseFirst8Hex (s : String) : Nat :=
  parseHexAcc (s.toList.take 8) 0

/-- Model of JavaScript `Math.round`: round half towards positive infinity. -/
def jsRound (x : ℚ) : ℤ := ⌊x + 1/2⌋

/-- Model of `Math.round(x * 100) / 100`, the two-decimal rounding applied to
externally visible figures. -/
def round2 (x : ℚ) : ℚ := (jsRound (x * 100) : ℚ) / 100

/-- Model of `Math.round(x * 10000) / 10000`, the four-decimal rounding used
by the client-side multiplier display. -/
def round4 (x : ℚ) : ℚ := (jsRound (x * 10000) : ℚ) / 10000

inductive BetType where
  | over
  | under
deriving DecidableEq, Repr

inductive Side where
  | cat
  | dog
deriving DecidableEq, Repr

inductive GameType where
  | dice
  | flip
deriving DecidableEq, Repr

namespace ProvablyFair

/-- Model of `verifyServerSeed` from `provably-fair.ts`: recompute the SHA-256
hex digest of the server seed and compare with the stored hash. -/
def verifyServerSeed (cr : CryptoPrim) (serverSeed serverSeedHash : String) : Bool :=
  cr.sha256Hex serverSeed == serverSeedHash

/-- Model of `generateGameResult` from `provably-fair.ts`: HMAC-SHA256 with the
server seed as key over `clientSeed + "-" + nonce`, parse the first 8 hex
characters of the digest, reduce mod 10000 and divide by 100. -/
def generateGameResult (cr : CryptoPrim) (serverSeed clientSeed : String) (nonce : Nat) : ℚ :=
  let hash := cr.hmacSha256Hex serverSeed (clientSeed ++ "-" ++ toString nonce)
  let decimalValue := parseFirst8Hex hash
  ((decimalValue % 10000 : Nat) : ℚ) / 100

/-- Model of `verifyGameResult` from `provably-fair.ts`: recompute the outcome
and accept when it is within 0.01 of the expected stored result. -/
def verifyGameResult (cr : CryptoPrim) (serverSeed clientSeed : String) (nonce : Nat)
    (expectedResult : ℚ) : Bool :=
  decide (|generateGameResult cr serverSeed clientSeed nonce - expectedResult| < 0.01)

/-- Model of `generateDiceRoll` from `provably-fair.ts`. -/
def generateDiceRoll (cr : CryptoPrim) (serverSeed clientSeed : String) (nonce : Nat) : ℚ :=
  generateGameResult cr serverSeed clientSeed nonce

/-- Model of `generateCoinFlip` from `provably-fair.ts`: raw result below 50
maps to 0 (cat), otherwise to 1 (dog). -/
def generateCoinFlip (cr : CryptoPrim) (serverSeed clientSeed : String) (nonce : Nat) : Nat :=
  if generateGameResult cr serverSeed clientSeed nonce < 50 then 0 else 1

/-- Model of `isDiceWin` from `provably-fair.ts`. -/
def isDiceWin (roll : ℚ) (betType : BetType) (target : ℚ) : Bool :=
  match betType with
  | .over => decide (roll > target)
  | .under => decide (roll < target)

/-- Model of `isCoinFlipWin` from `provably-fair.ts`: the chosen side's numeric
value (cat = 0, dog = 1) must equal the flip result. -/
def isCoinFlipWin (result : Nat) (betSide : Side) : Bool :=
  let betValue : Nat := match betSide with | .cat => 0 | .dog => 1
  result == betValue

/-- Model of `calculateDiceWinChance` from `provably-fair.ts`. -/
def calculateDiceWinChance (betType : BetType) (target : ℚ) : ℚ :=
  match betType with
  | .over => max 0 (min 100 (100 - target))
  | .under => max 0 (min 100 target)

/-- Default house edge of `calculateMultiplier` (the `houseEdge: number = 1`
default parameter). -/
def houseEdgeDefault : ℚ := 1

/-- Model of `calculateMultiplier` from `provably-fair.ts`. -/
def calculateMultiplier (winChance houseEdge : ℚ) : ℚ :=
  if winChance ≤ 0 then 1 else (100 - houseEdge) / winChance

/-- Validation result shape `{valid, error?}` returned by the bet
validators. -/
structure BetValidation where
  valid : Bool
  error : Option String
deriving DecidableEq, Repr

/-- Model of `validateDiceBet` from `provably-fair.ts`. -/
def validateDiceBet (amount : ℚ) (betType : BetType) (target : ℚ) (balance : ℚ) :
    BetValidation :=
  if amount ≤ 0 then ⟨false, some "Bet amount must be positive"⟩
  else if amount > balance then ⟨false, some "Insufficient balance"⟩
  else if target < 0.01 ∨ target > 99.99 then
    ⟨false, some "Target must be between 0.01 and 99.99"⟩
  else
    let winChance := calculateDiceWinChance betType target
    if winChance < 1 ∨ winChance > 98 then
      ⟨false, some "Win chance must be between 1% and 98%"⟩
    else ⟨true, none⟩

/-- Model of `validateCoinFlipBet` from `provably-fair.ts`; the side-membership
check of the source is vacuous on the typed `Side` enum. -/
def validateCoinFlipBet (amount : ℚ) (_side : Side) (balance : ℚ) : BetValidation :=
  if amount ≤ 0 then ⟨false, some "Bet amount must be positive"⟩
  else if amount > balance then ⟨false, some "Insufficient balance"⟩
  else ⟨true, none⟩

end ProvablyFair

namespace GameUtils

/-- Model of the client-side `calculateMultiplier` from `game-utils.ts`:
`winChance > 0 ? Math.round((99 / winChance) * 10000) / 10000 : 1`. -/
def calculateMultiplier (winChance : ℚ) : ℚ :=
  if winChance > 0 then round4 (99 / winChance) else 1

end GameUtils

/-- A persisted row of the `bet` table, restricted to the columns the
settlement and verification core reads and writes (`id` and `createdAt`
are omitted; `gameData` is kept as the raw pair of game parameters it
serialises). -/
structure BetRecord where
  gameType : GameType
  amount : ℚ
  multiplier : ℚ
  win : Bool
  payout : ℚ
  serverSeed : String
  serverSeedHash : String
  clientSeed : String
  nonce : Nat
  result : ℚ
deriving DecidableEq, Repr

/-- The transactional store state for one principal: the `user.balance`
column, the optional `user_game_session` row (`none` when the row does not
exist yet) and the list of persisted bet records in insertion order. -/
structure DbState where
  balance : ℚ
  sessionNonce : Option Nat
  bets : List BetRecord
deriving DecidableEq, Repr

/-- The `currentNonce` the settlement reads: the session row's value, or 0
when the row is absent. -/
def DbState.sessNonce (st : DbState) : Nat := st.sessionNonce.getD 0

/-- Fresh principal state: starting balance, no session row, no bets. -/
def initState (balance : ℚ) : DbState :=
  { balance := balance, sessionNonce := none, bets := [] }

/-- Successful dice settlement response body (minus the random `betId`). -/
structure DiceResponse where
  roll : ℚ
  win : Bool
  payout : ℚ
  newBalance : ℚ
  serverSeedHash : String
  clientSeed : String
  nonce : Nat
deriving DecidableEq, Repr

/-- Successful coin-flip settlement response body (minus the random
`betId`). -/
structure FlipResponse where
  flipResult : Side
  win : Bool
  payout : ℚ
  newBalance : ℚ
  serverSeedHash : String
  clientSeed : String
  nonce : Nat
deriving DecidableEq, Repr

/-- Outcome of a settlement POST: a success body, or an HTTP error status
with its stable reason string. -/
inductive PostOutcome (α : Type) where
  | success (resp : α)
  | failure (status : Nat) (error : String)
deriving DecidableEq, Repr

open ProvablyFair

namespace DiceRoute

/-- Body of the `db.transaction` callback of the dice POST handler, as
explicit state passing: reads/creates the session row, re-checks the balance
(throwing `Insufficient balance`), derives the roll, then persists the bet
record, the balance update and the advanced nonce.  `Except.error` models a
thrown error, which rolls the whole transaction back. -/
def diceBetTx (cr : CryptoPrim) (st : DbState) (amount : ℚ) (betType : BetType)
    (target : ℚ) (serverSeed serverSeedHash finalClientSeed : String) :
    Except String (DbState × DiceResponse) :=
  let currentNonce := st.sessNonce
  let st1 : DbState :=
    match st.sessionNonce with
    | none => { st with sessionNonce := some 0 }
    | some _ => st
  let nonce := currentNonce + 1
  if st1.balance < amount then .error "Insufficient balance"
  else
    let roll := generateDiceRoll cr serverSeed finalClientSeed nonce
    let win := isDiceWin roll betType target
    let winChance := calculateDiceWinChance betType target
    let multiplier := calculateMultiplier winChance houseEdgeDefault
    let payout := if win then amount * multiplier else 0
    let balanceChange := payout - amount
    let bet : BetRecord :=
      { gameType := .dice
        amount := amount
        multiplier := multiplier
        win := win
        payout := payout
        serverSeed := serverSeed
        serverSeedHash := serverSeedHash
        clientSeed := finalClientSeed
        nonce := nonce
        result := roll }
    let st2 : DbState :=
      { balance := st1.balance + balanceChange
        sessionNonce := some nonce
        bets := st1.bets ++ [bet] }
    .ok (st2,
      { roll := round2 roll
        win := win
        payout := round2 payout
        newBalance := round2 st2.balance
        serverSeedHash := serverSeedHash
        clientSeed := finalClientSeed
        nonce := nonce })

/-- The dice POST handler after authentication and body parsing: validate
against the pre-transaction balance, compute the seed commitment, run the
transaction (a thrown `Insufficient balance` rolls back and maps to HTTP
400), and return the final committed state with the response.  The random
server seed and the final client seed are parameters standing for
`generateServerSeed()` / `clientSeed || generateClientSeed()`. -/
def POST (cr : CryptoPrim) (st : DbState) (amount : ℚ) (betType : BetType)
    (target : ℚ) (serverSeed finalClientSeed : String) :
    DbState × PostOutcome DiceResponse :=
  let validation := validateDiceBet amount betType target st.balance
  if validation.valid then
    let serverSeedHash := cr.sha256Hex serverSeed
    match diceBetTx cr st amount betType target serverSeed serverSeedHash finalClientSeed with
    | .ok (st', resp) => (st', .success resp)
    | .error e =>
      if e == "Insufficient balance" then (st, .failure 400 "Insufficient balance")
      else (st, .failure 500 "Internal server error")
  else (st, .failure 400 (validation.error.getD ""))

end DiceRoute

namespace FlipRoute

/-- Body of the `db.transaction` callback of the coin-flip POST handler,
mirroring the dice transaction with the flip game functions, the fixed
`winChance = 49.5` and the 0/1 flip value stored in `result`. -/
def flipBetTx (cr : CryptoPrim) (st : DbState) (amount : ℚ) (side : Side)
    (serverSeed serverSeedHash finalClientSeed : String) :
    Except String (DbState × FlipResponse) :=
  let currentNonce := st.sessNonce
  let st1 : DbState :=
    match st.sessionNonce with
    | none => { st with sessionNonce := some 0 }
    | some _ => st
  let nonce := currentNonce + 1
  if st1.balance < amount then .error "Insufficient balance"
  else
    let flipResultValue := generateCoinFlip cr serverSeed finalClientSeed nonce
    let flipResult : Side := if flipResultValue == 0 then .cat else .dog
    let win := isCoinFlipWin flipResultValue side
    let winChance : ℚ := 49.5
    let multiplier := calculateMultiplier winChance houseEdgeDefault
    let payout := if win then amount * multiplier else 0
    let balanceChange := payout - amount
    let bet : BetRecord :=
      { gameType := .flip
        amount := amount
        multiplier := multiplier
        win := win
        payout := payout
        serverSeed := serverSeed
        serverSeedHash := serverSeedHash
        clientSeed := finalClientSeed
        nonce := nonce
        result := (flipResultValue : ℚ) }
    let st2 : DbState :=
      { balance := st1.balance + balanceChange
        sessionNonce := some nonce
        bets := st1.bets ++ [bet] }
    .ok (st2,
      { flipResult := flipResult
        win := win
        payout := round2 payout
        newBalance := round2 st2.balance
        serverSeedHash := serverSeedHash
        clientSeed := finalClientSeed
        nonce := nonce })

/-- The coin-flip POST handler after authentication and body parsing,
analogous to `DiceRoute.POST`. -/
def POST (cr : CryptoPrim) (st : DbState) (amount : ℚ) (side : Side)
    (serverSeed finalClientSeed : String) :
    DbState × PostOutcome FlipResponse :=
  let validation := validateCoinFlipBet amount side st.balance
  if validation.valid then
    let serverSeedHash := cr.sha256Hex serverSeed
    match flipBetTx cr st amount side serverSeed serverSeedHash finalClientSeed with
    | .ok (st', resp) => (st', .success resp)
    | .error e =>
      if e == "Insufficient balance" then (st, .failure 400 "Insufficient balance")
      else (st, .failure 500 "Internal server error")
  else (st, .failure 400 (validation.error.getD ""))

end FlipRoute

namespace VerifyRoute

/-- The data object returned by the bet verification GET endpoint, restricted
to the fields the round-trip claim is about. -/
structure VerifyData where
  verified : Bool
  seedHashValid : Bool
  expectedResult : ℚ
  calculatedResult : ℚ
deriving DecidableEq, Repr

/-- Model of the verification GET endpoint applied to a found bet record:
recheck the seed hash, recompute the per-game calculated result, and set
`verified` from the seed-hash check together with `verifyGameResult` applied
to the stored `result` column. -/
def verifyBet (cr : CryptoPrim) (bet : BetRecord) : VerifyData :=
  let seedHashValid := verifyServerSeed cr bet.serverSeed bet.serverSeedHash
  let calculatedResult : ℚ :=
    match bet.gameType with
    | .dice => generateDiceRoll cr bet.serverSeed bet.clientSeed bet.nonce
    | .flip => (generateCoinFlip cr bet.serverSeed bet.clientSeed bet.nonce : ℚ)
  let verified := seedHashValid &&
    verifyGameResult cr bet.serverSeed bet.clientSeed bet.nonce bet.result
  { verified := verified
    seedHashValid := seedHashValid
    expectedResult := bet.result
    calculatedResult := calculatedResult }

end VerifyRoute

/-- One observable settlement step on a principal's store state: a dice or a
coin-flip POST with arbitrary request parameters, random seeds and crypto
primitives; both failed and successful settlements are steps (a failed one
leaves the state unchanged). -/
inductive SettleStep : DbState → DbState → Prop where
  | dice (cr : CryptoPrim) (st : DbState) (amount : ℚ) (betType : BetType) (target : ℚ)
      (serverSeed finalClientSeed : String) (st' : DbState) (out : PostOutcome DiceResponse)
      (h : DiceRoute.POST cr st amount betType target serverSeed finalClientSeed = (st', out)) :
      SettleStep st st'
  | flip (cr : CryptoPrim) (st : DbState) (amount : ℚ) (side : Side)
      (serverSeed finalClientSeed : String) (st' : DbState) (out : PostOutcome FlipResponse)
      (h : FlipRoute.POST cr st amount side serverSeed finalClientSeed = (st', out)) :
      SettleStep st st'

/-- A state is reachable from another by any finite sequence of settlement
steps. -/
def Reach (st0 st : DbState) : Prop := Relation.ReflTransGen SettleStep st0 st

/-- A concrete crypto instance whose HMAC digest always parses to 8000, so the
derived raw outcome is 80.00 (dice roll 80.00; flip value 1 = dog). -/
def cryptoHi : CryptoPrim :=
  { sha256Hex := fun s => "h-" ++ s
    hmacSha256Hex := fun _ _ => "00001f40aabbccdd" }

/-- A concrete crypto instance whose HMAC digest always parses to 4000, so the
derived raw outcome is 40.00 (dice roll 40.00; flip value 0 = cat). -/
def cryptoLo : CryptoPrim :=
  { sha256Hex := fun s => "h-" ++ s
    hmacSha256Hex := fun _ _ => "00000fa0aabbccdd" }

/-- Under `cryptoHi`, every derived raw outcome is 80.00. -/
theorem generateGameResult_cryptoHi (ss cs : String) (n : Nat) :
    ProvablyFair.generateGameResult cryptoHi ss cs n = 80 := by
  have hp : parseFirst8Hex "00001f40aabbccdd" = 8000 := by decide
  unfold ProvablyFair.generateGameResult
  norm_num [cryptoHi, hp]

/-- Under `cryptoLo`, every derived raw outcome is 40.00. -/
theorem generateGameResult_cryptoLo (ss cs : String) (n : Nat) :
    ProvablyFair.generateGameResult cryptoLo ss cs n = 40 := by
  have hp : parseFirst8Hex "00000fa0aabbccdd" = 4000 := by decide
  unfold ProvablyFair.generateGameResult
  norm_num [cryptoLo, hp]

namespace DiceRoute

/-- When the pre-transaction validation rejects, the dice POST leaves the
state untouched and answers 400 with the validator's reason. -/
theorem dice_post_invalid (cr : CryptoPrim) (st : DbState) (a : ℚ) (bt : BetType) (t : ℚ)
    (ss cs : String) (hv : (validateDiceBet a bt t st.balance).valid = false) :
    POST cr st a bt t ss cs =
      (st, .failure 400 ((validateDiceBet a bt t st.balance).error.getD "")) := by
  simp [POST, hv]

/-- When validation passes but the in-transaction balance re-check fails, the
transaction throws, everything rolls back, and the POST answers 400 with the
`Insufficient balance` reason on the unchanged state. -/
theorem dice_post_insufficient (cr : CryptoPrim) (st : DbState) (a : ℚ) (bt : BetType) (t : ℚ)
    (ss cs : String) (hv : (validateDiceBet a bt t st.balance).valid = true)
    (hb : st.balance < a) :
    POST cr st a bt t ss cs = (st, .failure 400 "Insufficient balance") := by
  cases hs : st.sessionNonce <;>
    simp [POST, diceBetTx, hv, hs, hb]

/-- When validation passes and the in-transaction balance re-check succeeds,
the dice POST commits: it appends exactly one bet record carrying nonce
`sessNonce + 1`, adds `payout - amount` to the balance, persists the advanced
nonce and answers with the rounded response. -/
theorem dice_post_success (cr : CryptoPrim) (st : DbState) (a : ℚ) (bt : BetType) (t : ℚ)
    (ss cs : String) (hv : (validateDiceBet a bt t st.balance).valid = true)
    (hb : ¬ st.balance < a) :
    POST cr st a bt t ss cs =
      ({ balance := st.balance +
            ((if isDiceWin (generateDiceRoll cr ss cs (st.sessNonce + 1)) bt t then
                a * calculateMultiplier (calculateDiceWinChance bt t) houseEdgeDefault
              else 0) - a)
         sessionNonce := some (st.sessNonce + 1)
         bets := st.bets ++
           [{ gameType := .dice
              amount := a
              multiplier := calculateMultiplier (calculateDiceWinChance bt t) houseEdgeDefault
              win := isDiceWin (generateDiceRoll cr ss cs (st.sessNonce + 1)) bt t
              payout := if isDiceWin (generateDiceRoll cr ss cs (st.sessNonce + 1)) bt t then
                  a * calculateMultiplier (calculateDiceWinChance bt t) houseEdgeDefault
                else 0
              serverSeed := ss
              serverSeedHash := cr.sha256Hex ss
              clientSeed := cs
              nonce := st.sessNonce + 1
              result := generateDiceRoll cr ss cs (st.sessNonce + 1) }] },
       .success
         { roll := round2 (generateDiceRoll cr ss cs (st.sessNonce + 1))
           win := isDiceWin (generateDiceRoll cr ss cs (st.sessNonce + 1)) bt t
           payout := round2 (if isDiceWin (generateDiceRoll cr ss cs (st.sessNonce + 1)) bt t then
               a * calculateMultiplier (calculateDiceWinChance bt t) houseEdgeDefault
             else 0)
           newBalance := round2 (st.balance +
             ((if isDiceWin (generateDiceRoll cr ss cs (st.sessNonce + 1)) bt t then
                 a * calculateMultiplier (calculateDiceWinChance bt t) houseEdgeDefault
               else 0) - a))
           serverSeedHash := cr.sha256Hex ss
           clientSeed := cs
           nonce := st.sessNonce + 1 }) := by
  cases hs : st.sessionNonce <;>
    simp [POST, diceBetTx, hv, hs, hb, DbState.sessNonce]

end DiceRoute

namespace FlipRoute

/-- When the pre-transaction validation rejects, the flip POST leaves the
state untouched and answers 400 with the validator's reason. -/
theorem flip_post_invalid (cr : CryptoPrim) (st : DbState) (a : ℚ) (sd : Side)
    (ss cs : String) (hv : (validateCoinFlipBet a sd st.balance).valid = false) :
    POST cr st a sd ss cs =
      (st, .failure 400 ((validateCoinFlipBet a sd st.balance).error.getD "")) := by
  simp [POST, hv]

/-- When validation passes but the in-transaction balance re-check fails, the
flip transaction throws, everything rolls back, and the POST answers 400 with
the `Insufficient balance` reason on the unchanged state. -/
theorem flip_post_insufficient (cr : CryptoPrim) (st : DbState) (a : ℚ) (sd : Side)
    (ss cs : String) (hv : (validateCoinFlipBet a sd st.balance).valid = true)
    (hb : st.balance < a) :
    POST cr st a sd ss cs = (st, .failure 400 "Insufficient balance") := by
  cases hs : st.sessionNonce <;>
    simp [POST, flipBetTx, hv, hs, hb]

/-- When validation passes and the in-transaction balance re-check succeeds,
the flip POST commits: one bet record with nonce `sessNonce + 1` and the 0/1
flip value stored in `result`, the balance moved by `payout - amount`, the
advanced nonce persisted, and the rounded response returned. -/
theorem flip_post_success (cr : CryptoPrim) (st : DbState) (a : ℚ) (sd : Side)
    (ss cs : String) (hv : (validateCoinFlipBet a sd st.balance).valid = true)
    (hb : ¬ st.balance < a) :
    POST cr st a sd ss cs =
      ({ balance := st.balance +
            ((if isCoinFlipWin (generateCoinFlip cr ss cs (st.sessNonce + 1)) sd then
                a * calculateMultiplier (49.5 : ℚ) houseEdgeDefault
              else 0) - a)
         sessionNonce := some (st.sessNonce + 1)
         bets := st.bets ++
           [{ gameType := .flip
              amount := a
              multiplier := calculateMultiplier (49.5 : ℚ) houseEdgeDefault
              win := isCoinFlipWin (generateCoinFlip cr ss cs (st.sessNonce + 1)) sd
              payout := if isCoinFlipWin (generateCoinFlip cr ss cs (st.sessNonce + 1)) sd then
                  a * calculateMultiplier (49.5 : ℚ) houseEdgeDefault
                else 0
              serverSeed := ss
              serverSeedHash := cr.sha256Hex ss
              clientSeed := cs
              nonce := st.sessNonce + 1
              result := (generateCoinFlip cr ss cs (st.sessNonce + 1) : ℚ) }] },
       .success
         { flipResult := if generateCoinFlip cr ss cs (st.sessNonce + 1) == 0 then Side.cat
             else Side.dog
           win := isCoinFlipWin (generateCoinFlip cr ss cs (st.sessNonce + 1)) sd
           payout := round2 (if isCoinFlipWin (generateCoinFlip cr ss cs (st.sessNonce + 1)) sd then
               a * calculateMultiplier (49.5 : ℚ) houseEdgeDefault
             else 0)
           newBalance := round2 (st.balance +
             ((if isCoinFlipWin (generateCoinFlip cr ss cs (st.sessNonce + 1)) sd then
                 a * calculateMultiplier (49.5 : ℚ) houseEdgeDefault
               else 0) - a))
           serverSeedHash := cr.sha256Hex ss
           clientSeed := cs
           nonce := st.sessNonce + 1 }) := by
  cases hs : st.sessionNonce <;>
    simp [POST, flipBetTx, hv, hs, hb, DbState.sessNonce]

end FlipRoute


namespace ProvablyFair

/-- Inversion of dice validation: an accepted dice bet has a positive amount
not exceeding the balance, a target inside the 0.01 to 99.99 window and a
computed win chance inside the 1 to 98 window. -/
theorem validateDiceBet_valid {a : ℚ} {bt : BetType} {t bal : ℚ}
    (h : (validateDiceBet a bt t bal).valid = true) :
    0 < a ∧ a ≤ bal ∧ 0.01 ≤ t ∧ t ≤ 99.99 ∧
      1 ≤ calculateDiceWinChance bt t ∧ calculateDiceWinChance bt t ≤ 98 := by
  unfold validateDiceBet at h
  split_ifs at h with h1 h2 h3
  dsimp only at h
  split_ifs at h with h4
  push_neg at h1 h2 h3 h4
  exact ⟨h1, h2, h3.1, h3.2, h4.1, h4.2⟩

/-- Inversion of coin-flip validation: an accepted flip bet has a positive
amount not exceeding the balance. -/
theorem validateCoinFlipBet_valid {a : ℚ} {sd : Side} {bal : ℚ}
    (h : (validateCoinFlipBet a sd bal).valid = true) :
    0 < a ∧ a ≤ bal := by
  unfold validateCoinFlipBet at h
  split_ifs at h with h1 h2
  push_neg at h1 h2
  exact ⟨h1, h2⟩

/-- With a positive requested amount and a balance below it, dice validation
rejects with the `Insufficient balance` reason. -/
theorem validateDiceBet_insufficient {a : ℚ} (bt : BetType) (t : ℚ) {bal : ℚ}
    (ha : 0 < a) (hb : bal < a) :
    validateDiceBet a bt t bal = ⟨false, some "Insufficient balance"⟩ := by
  unfold validateDiceBet
  rw [if_neg (not_le.mpr ha), if_pos hb]

/-- With a positive requested amount and a balance below it, coin-flip
validation rejects with the `Insufficient balance` reason. -/
theorem validateCoinFlipBet_insufficient {a : ℚ} (sd : Side) {bal : ℚ}
    (ha : 0 < a) (hb : bal < a) :
    validateCoinFlipBet a sd bal = ⟨false, some "Insufficient balance"⟩ := by
  unfold validateCoinFlipBet
  rw [if_neg (not_le.mpr ha), if_pos hb]

/-- With the default house edge the multiplier is always positive. -/
theorem calculateMultiplier_pos (w : ℚ) : 0 < calculateMultiplier w houseEdgeDefault := by
  unfold calculateMultiplier houseEdgeDefault
  split_ifs with h
  · norm_num
  · push_neg at h
    exact div_pos (by norm_num) h

end ProvablyFair

namespace DiceRoute

/-- A failed dice POST leaves the store state unchanged. -/
theorem dice_post_failure_inv {cr : CryptoPrim} {st : DbState} {a : ℚ} {bt : BetType} {t : ℚ}
    {ss cs : String} {st' : DbState} {code : Nat} {e : String}
    (h : POST cr st a bt t ss cs = (st', .failure code e)) : st' = st := by
  by_cases hv : (validateDiceBet a bt t st.balance).valid = true
  · by_cases hb : st.balance < a
    · rw [dice_post_insufficient cr st a bt t ss cs hv hb] at h
      exact congrArg Prod.fst h.symm
    · rw [dice_post_success cr st a bt t ss cs hv hb] at h
      simp at h
  · rw [dice_post_invalid cr st a bt t ss cs (Bool.not_eq_true _ ▸ hv)] at h
    exact congrArg Prod.fst h.symm

/-- Inversion of a successful dice POST: validation passed, the
in-transaction balance check passed, and the committed state appends one bet
record with nonce one above the session counter, nonnegative payout and
amount equal to the wager, moves the balance by payout minus amount, and
persists the advanced nonce, which is also the nonce of the response. -/
theorem dice_post_success_inv {cr : CryptoPrim} {st : DbState} {a : ℚ} {bt : BetType} {t : ℚ}
    {ss cs : String} {st' : DbState} {r : DiceResponse}
    (h : POST cr st a bt t ss cs = (st', .success r)) :
    ∃ bet : BetRecord,
      (validateDiceBet a bt t st.balance).valid = true
      ∧ ¬ st.balance < a
      ∧ bet.amount = a
      ∧ 0 < bet.amount
      ∧ 0 ≤ bet.payout
      ∧ bet.nonce = st.sessNonce + 1
      ∧ r.nonce = st.sessNonce + 1
      ∧ st' = { balance := st.balance + (bet.payout - bet.amount)
                sessionNonce := some (st.sessNonce + 1)
                bets := st.bets ++ [bet] } := by
  by_cases hv : (validateDiceBet a bt t st.balance).valid = true
  · by_cases hb : st.balance < a
    · rw [dice_post_insufficient cr st a bt t ss cs hv hb] at h
      simp at h
    · rw [dice_post_success cr st a bt t ss cs hv hb] at h
      have ha : 0 < a := (validateDiceBet_valid hv).1
      have hm := calculateMultiplier_pos (calculateDiceWinChance bt t)
      rw [Prod.mk.injEq, PostOutcome.success.injEq] at h
      obtain ⟨hst, hr⟩ := h
      refine ⟨{ gameType := .dice
                amount := a
                multiplier := calculateMultiplier (calculateDiceWinChance bt t) houseEdgeDefault
                win := isDiceWin (generateDiceRoll cr ss cs (st.sessNonce + 1)) bt t
                payout := if isDiceWin (generateDiceRoll cr ss cs (st.sessNonce + 1)) bt t then
                    a * calculateMultiplier (calculateDiceWinChance bt t) houseEdgeDefault
                  else 0
                serverSeed := ss
                serverSeedHash := cr.sha256Hex ss
                clientSeed := cs
                nonce := st.sessNonce + 1
                result := generateDiceRoll cr ss cs (st.sessNonce + 1) },
              hv, hb, rfl, ha, ?_, rfl, ?_, hst.symm⟩
      · dsimp only
        split_ifs
        · exact mul_nonneg ha.le hm.le
        · exact le_refl 0
      · rw [← hr]
  · rw [dice_post_invalid cr st a bt t ss cs (Bool.not_eq_true _ ▸ hv)] at h
    simp at h

end DiceRoute

namespace FlipRoute

/-- A failed flip POST leaves the store state unchanged. -/
theorem flip_post_failure_inv {cr : CryptoPrim} {st : DbState} {a : ℚ} {sd : Side}
    {ss cs : String} {st' : DbState} {code : Nat} {e : String}
    (h : POST cr st a sd ss cs = (st', .failure code e)) : st' = st := by
  by_cases hv : (validateCoinFlipBet a sd st.balance).valid = true
  · by_cases hb : st.balance < a
    · rw [flip_post_insufficient cr st a sd ss cs hv hb] at h
      exact congrArg Prod.fst h.symm
    · rw [flip_post_success cr st a sd ss cs hv hb] at h
      simp at h
  · rw [flip_post_invalid cr st a sd ss cs (Bool.not_eq_true _ ▸ hv)] at h
    exact congrArg Prod.fst h.symm

/-- Inversion of a successful flip POST, mirroring the dice version. -/
theorem flip_post_success_inv {cr : CryptoPrim} {st : DbState} {a : ℚ} {sd : Side}
    {ss cs : String} {st' : DbState} {r : FlipResponse}
    (h : POST cr st a sd ss cs = (st', .success r)) :
    ∃ bet : BetRecord,
      (validateCoinFlipBet a sd st.balance).valid = true
      ∧ ¬ st.balance < a
      ∧ bet.amount = a
      ∧ 0 < bet.amount
      ∧ 0 ≤ bet.payout
      ∧ bet.nonce = st.sessNonce + 1
      ∧ r.nonce = st.sessNonce + 1
      ∧ st' = { balance := st.balance + (bet.payout - bet.amount)
                sessionNonce := some (st.sessNonce + 1)
                bets := st.bets ++ [bet] } := by
  by_cases hv : (validateCoinFlipBet a sd st.balance).valid = true
  · by_cases hb : st.balance < a
    · rw [flip_post_insufficient cr st a sd ss cs hv hb] at h
      simp at h
    · rw [flip_post_success cr st a sd ss cs hv hb] at h
      have ha : 0 < a := (validateCoinFlipBet_valid hv).1
      have hm := calculateMultiplier_pos (49.5 : ℚ)
      rw [Prod.mk.injEq, PostOutcome.success.injEq] at h
      obtain ⟨hst, hr⟩ := h
      refine ⟨{ gameType := .flip
                amount := a
                multiplier := calculateMultiplier (49.5 : ℚ) houseEdgeDefault
                win := isCoinFlipWin (generateCoinFlip cr ss cs (st.sessNonce + 1)) sd
                payout := if isCoinFlipWin (generateCoinFlip cr ss cs (st.sessNonce + 1)) sd then
                    a * calculateMultiplier (49.5 : ℚ) houseEdgeDefault
                  else 0
                serverSeed := ss
                serverSeedHash := cr.sha256Hex ss
                clientSeed := cs
                nonce := st.sessNonce + 1
                result := (generateCoinFlip cr ss cs (st.sessNonce + 1) : ℚ) },
              hv, hb, rfl, ha, ?_, rfl, ?_, hst.symm⟩
      · dsimp only
        split_ifs
        · exact mul_nonneg ha.le hm.le
        · exact le_refl 0
      · rw [← hr]
  · rw [flip_post_invalid cr st a sd ss cs (Bool.not_eq_true _ ▸ hv)] at h
    simp at h

end FlipRoute

/-- The per-principal nonce bookkeeping invariant: the nonces of the persisted
bets, in insertion order, are exactly 1, 2, ..., currentNonce. -/
def NonceInv (st : DbState) : Prop :=
  st.bets.map BetRecord.nonce = (List.range st.sessNonce).map (· + 1)

/-- Every settlement step preserves the nonce bookkeeping invariant. -/
theorem settleStep_nonceInv {st st' : DbState} (h : SettleStep st st')
    (hn : NonceInv st) : NonceInv st' := by
  cases h with
  | dice cr st a bt t ss cs st' out hp =>
    cases out with
    | failure code e =>
      rw [DiceRoute.dice_post_failure_inv hp]
      exact hn
    | success r =>
      obtain ⟨bet, -, -, -, -, -, hbn, -, hst⟩ := DiceRoute.dice_post_success_inv hp
      subst hst
      unfold NonceInv at hn ⊢
      simp only [DbState.sessNonce, Option.getD_some, List.map_append, List.map_cons,
        List.map_nil, hn, hbn, List.range_succ]
  | flip cr st a sd ss cs st' out hp =>
    cases out with
    | failure code e =>
      rw [FlipRoute.flip_post_failure_inv hp]
      exact hn
    | success r =>
      obtain ⟨bet, -, -, -, -, -, hbn, -, hst⟩ := FlipRoute.flip_post_success_inv hp
      subst hst
      unfold NonceInv at hn ⊢
      simp only [DbState.sessNonce, Option.getD_some, List.map_append, List.map_cons,
        List.map_nil, hn, hbn, List.range_succ]

/-- Every settlement step preserves nonnegativity of the balance. -/
theorem settleStep_balance {st st' : DbState} (h : SettleStep st st')
    (hb : 0 ≤ st.balance) : 0 ≤ st'.balance := by
  cases h with
  | dice cr st a bt t ss cs st' out hp =>
    cases out with
    | failure code e =>
      rw [DiceRoute.dice_post_failure_inv hp]
      exact hb
    | success r =>
      obtain ⟨bet, -, hble, hba, -, hpay, -, -, hst⟩ := DiceRoute.dice_post_success_inv hp
      subst hst
      push_neg at hble
      dsimp only
      linarith [hba, hpay, hble]
  | flip cr st a sd ss cs st' out hp =>
    cases out with
    | failure code e =>
      rw [FlipRoute.flip_post_failure_inv hp]
      exact hb
    | success r =>
      obtain ⟨bet, -, hble, hba, -, hpay, -, -, hst⟩ := FlipRoute.flip_post_success_inv hp
      subst hst
      push_neg at hble
      dsimp only
      linarith [hba, hpay, hble]

/-- The nonce bookkeeping invariant holds in every state reachable from a
fresh principal. -/
theorem reach_nonceInv {b0 : ℚ} {st : DbState} (h : Reach (initState b0) st) :
    NonceInv st := by
  induction h with
  | refl => simp [NonceInv, initState, DbState.sessNonce]
  | tail hab hbc ih => exact settleStep_nonceInv hbc ih

/-- Balance nonnegativity holds in every state reachable from a fresh
principal with nonnegative starting balance. -/
theorem reach_balance {b0 : ℚ} {st : DbState} (h0 : 0 ≤ b0)
    (h : Reach (initState b0) st) : 0 ≤ st.balance := by
  induction h with
  | refl => exact h0
  | tail hab hbc ih => exact settleStep_balance hbc ih

/-- Evaluation rule for the JavaScript rounding model: `jsRound x = n` as soon
as `x + 1/2` lies in `[n, n + 1)`. -/
theorem jsRound_eq {x : ℚ} {n : ℤ} (h1 : (n : ℚ) ≤ x + 1/2) (h2 : x + 1/2 < n + 1) :
    jsRound x = n := by
  rw [jsRound]
  exact Int.floor_eq_iff.mpr ⟨h1, h2⟩

/-- Evaluation rule for two-decimal rounding. -/
theorem round2_eq {x : ℚ} {n : ℤ} (h1 : (n : ℚ) ≤ x * 100 + 1/2) (h2 : x * 100 + 1/2 < n + 1) :
    round2 x = (n : ℚ) / 100 := by
  rw [round2, jsRound_eq h1 h2]

/-- Evaluation rule for four-decimal rounding. -/
theorem round4_eq {x : ℚ} {n : ℤ} (h1 : (n : ℚ) ≤ x * 10000 + 1/2) (h2 : x * 10000 + 1/2 < n + 1) :
    round4 x = (n : ℚ) / 10000 := by
  rw [round4, jsRound_eq h1 h2]

/-- A parsed hex digit is below 16. -/
theorem hexVal_lt {c : Char} {v : Nat} (h : hexVal c = some v) : v < 16 := by
  unfold hexVal at h
  dsimp only at h
  split_ifs at h with h1 h2 h3
  · injection h with hv
    omega
  · injection h with hv
    omega
  · injection h with hv
    omega

/-- The hex accumulator parser is bounded by the digit count. -/
theorem parseHexAcc_lt (l : List Char) (acc : Nat) :
    parseHexAcc l acc < (acc + 1) * 16 ^ l.length := by
  induction l generalizing acc with
  | nil =>
    simp [parseHexAcc]
  | cons c l ih =>
    rw [parseHexAcc]
    cases hc : hexVal c with
    | none =>
      have hpow : 0 < 16 ^ (c :: l).length := Nat.pos_pow_of_pos _ (by norm_num)
      calc acc < acc + 1 := Nat.lt_succ_self acc
        _ ≤ (acc + 1) * 16 ^ (c :: l).length := Nat.le_mul_of_pos_right _ hpow
    | some v =>
      have hv : v < 16 := hexVal_lt hc
      have hstep : acc * 16 + v + 1 ≤ (acc + 1) * 16 := by omega
      calc parseHexAcc l (acc * 16 + v) < (acc * 16 + v + 1) * 16 ^ l.length := ih _
        _ ≤ ((acc + 1) * 16) * 16 ^ l.length := Nat.mul_le_mul_right _ hstep
        _ = (acc + 1) * 16 ^ (c :: l).length := by
            simp only [List.length_cons, pow_succ]
            ring

/-- The first-8-hex-characters parse always fits in an unsigned 32-bit
integer. -/
theorem parseFirst8Hex_lt (s : String) : parseFirst8Hex s < 2 ^ 32 := by
  have h := parseHexAcc_lt (s.toList.take 8) 0
  have hlen : (s.toList.take 8).length ≤ 8 := by
    simp [List.length_take]
  calc parseFirst8Hex s < 1 * 16 ^ (s.toList.take 8).length := h
    _ = 16 ^ (s.toList.take 8).length := one_mul _
    _ ≤ 16 ^ 8 := Nat.pow_le_pow_right (by norm_num) hlen
    _ = 2 ^ 32 := by norm_num

/-- C2: for every `(serverSeed, clientSeed, nonce)` the derived outcome equals
the first 8 hex characters of the HMAC digest parsed as an unsigned integer
(which always fits in 32 bits), reduced mod 10000 and divided by 100; the
returned value always lies in `[0, 99.99]` and is one of the 10000 discrete
two-decimal outcomes `k / 100` with `k < 10000`. -/
theorem C2_deriveOutcome_algorithm_and_range (cr : CryptoPrim) (ss cs : String) (n : Nat) :
    ProvablyFair.generateGameResult cr ss cs n =
      ((parseFirst8Hex (cr.hmacSha256Hex ss (cs ++ "-" ++ toString n)) % 10000 : Nat) : ℚ) / 100
    ∧ parseFirst8Hex (cr.hmacSha256Hex ss (cs ++ "-" ++ toString n)) < 2 ^ 32
    ∧ 0 ≤ ProvablyFair.generateGameResult cr ss cs n
    ∧ ProvablyFair.generateGameResult cr ss cs n ≤ 99.99
    ∧ ∃ k : Nat, k < 10000 ∧ ProvablyFair.generateGameResult cr ss cs n = (k : ℚ) / 100 := by
  have hk : parseFirst8Hex (cr.hmacSha256Hex ss (cs ++ "-" ++ toString n)) % 10000 < 10000 :=
    Nat.mod_lt _ (by norm_num)
  refine ⟨rfl, parseFirst8Hex_lt _, ?_, ?_, ?_⟩
  · unfold ProvablyFair.generateGameResult
    positivity
  · unfold ProvablyFair.generateGameResult
    dsimp only
    rw [div_le_iff₀ (by norm_num : (0:ℚ) < 100)]
    have : ((parseFirst8Hex (cr.hmacSha256Hex ss (cs ++ "-" ++ toString n)) % 10000 : Nat) : ℚ)
        ≤ 9999 := by
      exact_mod_cast Nat.lt_succ_iff.mp hk
    linarith
  · exact ⟨_, hk, rfl⟩

/-- C10 (implicit safety claim): the server multiplier is total and its
division is guarded: any `winChance ≤ 0` returns 1 without dividing, any
`winChance > 0` returns `(100 - houseEdge) / winChance` with a nonzero
divisor, and the default house edge is 1, so the default-edge value is
`99 / winChance`. -/
theorem C10_multiplier_total_guarded (w h : ℚ) :
    (w ≤ 0 → ProvablyFair.calculateMultiplier w h = 1)
    ∧ (0 < w → ProvablyFair.calculateMultiplier w h = (100 - h) / w ∧ w ≠ 0)
    ∧ (0 < w → ProvablyFair.calculateMultiplier w ProvablyFair.houseEdgeDefault = 99 / w)
    ∧ ProvablyFair.houseEdgeDefault = 1 := by
  refine ⟨fun hw => ?_, fun hw => ⟨?_, ne_of_gt hw⟩, fun hw => ?_, rfl⟩
  · simp [ProvablyFair.calculateMultiplier, hw]
  · simp [ProvablyFair.calculateMultiplier, not_le.mpr hw]
  · simp only [ProvablyFair.calculateMultiplier, ProvablyFair.houseEdgeDefault,
      if_neg (not_le.mpr hw)]
    norm_num

/-- Witness for C10 at concrete inputs: winChance -1 returns 1, winChance 2
returns 99/2 under the default house edge. -/
theorem C10_multiplier_total_guarded_witness :
    ProvablyFair.calculateMultiplier (-1) 1 = 1
    ∧ ProvablyFair.calculateMultiplier 2 1 = (100 - 1) / 2
    ∧ ProvablyFair.calculateMultiplier 2 ProvablyFair.houseEdgeDefault = 99 / 2 :=
  ⟨(C10_multiplier_total_guarded (-1) 1).1 (by norm_num),
   ((C10_multiplier_total_guarded 2 1).2.1 (by norm_num)).1,
   (C10_multiplier_total_guarded 2 1).2.2.1 (by norm_num)⟩

/-- C9 counterexample: at the accepted win chance 98 the client-side
multiplier (rounded to four decimals, 1.0102) differs from the server-side
multiplier 99/98 = 1.0102040816..., so the two computations do not produce
the exact same value. -/
theorem C9_counterexample_winChance98 :
    ¬ GameUtils.calculateMultiplier 98 =
        ProvablyFair.calculateMultiplier 98 ProvablyFair.houseEdgeDefault := by
  have hc : GameUtils.calculateMultiplier 98 = (10102 : ℚ) / 10000 := by
    rw [GameUtils.calculateMultiplier, if_pos (by norm_num : (98:ℚ) > 0),
      round4_eq (show ((10102 : ℤ) : ℚ) ≤ 99 / 98 * 10000 + 1/2 by norm_num)
        (by norm_num)]
    norm_num
  have hs : ProvablyFair.calculateMultiplier 98 ProvablyFair.houseEdgeDefault = 99 / 98 := by
    rw [ProvablyFair.calculateMultiplier, ProvablyFair.houseEdgeDefault,
      if_neg (by norm_num : ¬ (98:ℚ) ≤ 0)]
    norm_num
  rw [hc, hs]
  norm_num

/-- C9 amended: for every winChance the client-side multiplier equals the
server-side default-edge multiplier rounded to four decimal places (the
`Math.round(x * 10000) / 10000` applied by the client); in particular the two
coincide exactly at the win chances whose multiplier has at most four
decimals, such as the spec's displayed values 50 and 49.5. -/
theorem C9_client_multiplier_is_rounded_server (w : ℚ) :
    GameUtils.calculateMultiplier w =
      round4 (ProvablyFair.calculateMultiplier w ProvablyFair.houseEdgeDefault)
    ∧ GameUtils.calculateMultiplier 50 =
        ProvablyFair.calculateMultiplier 50 ProvablyFair.houseEdgeDefault
    ∧ GameUtils.calculateMultiplier 49.5 =
        ProvablyFair.calculateMultiplier 49.5 ProvablyFair.houseEdgeDefault := by
  refine ⟨?_, ?_, ?_⟩
  · by_cases hw : 0 < w
    · simp only [GameUtils.calculateMultiplier, ProvablyFair.calculateMultiplier,
        ProvablyFair.houseEdgeDefault, if_pos hw, if_neg (not_le.mpr hw)]
      norm_num
    · simp only [GameUtils.calculateMultiplier, ProvablyFair.calculateMultiplier,
        ProvablyFair.houseEdgeDefault, if_neg hw, if_pos (not_lt.mp hw)]
      rw [round4_eq (show ((10000 : ℤ) : ℚ) ≤ 1 * 10000 + 1/2 by norm_num) (by norm_num)]
      norm_num
  · rw [GameUtils.calculateMultiplier, if_pos (by norm_num : (50:ℚ) > 0),
      ProvablyFair.calculateMultiplier, ProvablyFair.houseEdgeDefault,
      if_neg (by norm_num : ¬ (50:ℚ) ≤ 0),
      round4_eq (show ((19800 : ℤ) : ℚ) ≤ 99 / 50 * 10000 + 1/2 by norm_num) (by norm_num)]
    norm_num
  · rw [GameUtils.calculateMultiplier, if_pos (by norm_num : (49.5:ℚ) > 0),
      ProvablyFair.calculateMultiplier, ProvablyFair.houseEdgeDefault,
      if_neg (by norm_num : ¬ (49.5:ℚ) ≤ 0),
      round4_eq (show ((20000 : ℤ) : ℚ) ≤ 99 / 49.5 * 10000 + 1/2 by norm_num) (by norm_num)]
    norm_num

/-- C7: a dice bet whose target lies outside [0.01, 99.99], whose computed win
chance lies outside [1, 98], or whose amount is nonpositive is rejected by the
pre-transaction validator, and the POST then returns a 400 failure on the
unchanged state (no mutation); conversely every accepted dice bet satisfies
all those bounds. -/
theorem C7_dice_validation_bounds (cr : CryptoPrim) (st : DbState) (a : ℚ) (bt : BetType)
    (t : ℚ) (ss cs : String) :
    ((t < 0.01 ∨ t > 99.99 ∨ ProvablyFair.calculateDiceWinChance bt t < 1
        ∨ ProvablyFair.calculateDiceWinChance bt t > 98 ∨ a ≤ 0) →
      (ProvablyFair.validateDiceBet a bt t st.balance).valid = false
      ∧ ∃ e, DiceRoute.POST cr st a bt t ss cs = (st, PostOutcome.failure 400 e))
    ∧ ((ProvablyFair.validateDiceBet a bt t st.balance).valid = true →
      0.01 ≤ t ∧ t ≤ 99.99 ∧ 1 ≤ ProvablyFair.calculateDiceWinChance bt t
      ∧ ProvablyFair.calculateDiceWinChance bt t ≤ 98) := by
  constructor
  · intro hout
    have hvf : (ProvablyFair.validateDiceBet a bt t st.balance).valid = false := by
      cases hval : (ProvablyFair.validateDiceBet a bt t st.balance).valid
      · rfl
      · exfalso
        obtain ⟨h1, h2, h3, h4, h5, h6⟩ := ProvablyFair.validateDiceBet_valid hval
        rcases hout with h | h | h | h | h <;> linarith
    exact ⟨hvf, _, DiceRoute.dice_post_invalid cr st a bt t ss cs hvf⟩
  · intro hv
    obtain ⟨-, -, h3, h4, h5, h6⟩ := ProvablyFair.validateDiceBet_valid hv
    exact ⟨h3, h4, h5, h6⟩

/-- Witness for C7: the out-of-range target 100 is rejected with a 400 on an
unchanged store, and the accepted example bet (amount 100, over, target 50)
satisfies the bounds. -/
theorem C7_dice_validation_bounds_witness :
    ((ProvablyFair.validateDiceBet 10 BetType.over 100 (initState 1000).balance).valid = false
      ∧ ∃ e, DiceRoute.POST cryptoHi (initState 1000) 10 BetType.over 100 "s" "c"
          = (initState 1000, PostOutcome.failure 400 e))
    ∧ (0.01 ≤ (50:ℚ) ∧ (50:ℚ) ≤ 99.99
      ∧ 1 ≤ ProvablyFair.calculateDiceWinChance BetType.over 50
      ∧ ProvablyFair.calculateDiceWinChance BetType.over 50 ≤ 98) :=
  ⟨(C7_dice_validation_bounds cryptoHi (initState 1000) 10 BetType.over 100 "s" "c").1
      (Or.inr (Or.inl (by norm_num))),
   (C7_dice_validation_bounds cryptoHi (initState 1000) 100 BetType.over 50 "s" "c").2
      (by norm_num [ProvablyFair.validateDiceBet, ProvablyFair.calculateDiceWinChance,
        initState, min_def, max_def])⟩

/-- C3: whenever the balance read for the settlement is below the wagered
amount (and the amount is positive), both game transactions throw the
`Insufficient balance` error — rolling back, so no bet record, no balance
change and no nonce advance survive — and both POST handlers answer 400 with
the `InsufficientBalance` reason on the completely unchanged state. -/
theorem C3_insufficient_balance_no_mutation (cr : CryptoPrim) (st : DbState) (a : ℚ)
    (bt : BetType) (t : ℚ) (sd : Side) (ss ssh cs : String)
    (ha : 0 < a) (hb : st.balance < a) :
    DiceRoute.diceBetTx cr st a bt t ss ssh cs = Except.error "Insufficient balance"
    ∧ DiceRoute.POST cr st a bt t ss cs = (st, PostOutcome.failure 400 "Insufficient balance")
    ∧ FlipRoute.flipBetTx cr st a sd ss ssh cs = Except.error "Insufficient balance"
    ∧ FlipRoute.POST cr st a sd ss cs = (st, PostOutcome.failure 400 "Insufficient balance") := by
  have hvd : (ProvablyFair.validateDiceBet a bt t st.balance).valid = false := by
    rw [ProvablyFair.validateDiceBet_insufficient bt t ha hb]
  have hvf : (ProvablyFair.validateCoinFlipBet a sd st.balance).valid = false := by
    rw [ProvablyFair.validateCoinFlipBet_insufficient sd ha hb]
  refine ⟨?_, ?_, ?_, ?_⟩
  · cases hs : st.sessionNonce <;> simp [DiceRoute.diceBetTx, hs, hb]
  · rw [DiceRoute.dice_post_invalid cr st a bt t ss cs hvd,
      ProvablyFair.validateDiceBet_insufficient bt t ha hb]
    rfl
  · cases hs : st.sessionNonce <;> simp [FlipRoute.flipBetTx, hs, hb]
  · rw [FlipRoute.flip_post_invalid cr st a sd ss cs hvf,
      ProvablyFair.validateCoinFlipBet_insufficient sd ha hb]
    rfl

/-- Witness for C3 at the spec's example: amount 2000 against balance 1000 is
rejected with `Insufficient balance` and the state is untouched. -/
theorem C3_insufficient_balance_no_mutation_witness :
    DiceRoute.diceBetTx cryptoLo (initState 1000) 2000 BetType.over 50 "s" "h" "c"
        = Except.error "Insufficient balance"
    ∧ DiceRoute.POST cryptoLo (initState 1000) 2000 BetType.over 50 "s" "c"
        = (initState 1000, PostOutcome.failure 400 "Insufficient balance")
    ∧ FlipRoute.flipBetTx cryptoLo (initState 1000) 2000 Side.cat "s" "h" "c"
        = Except.error "Insufficient balance"
    ∧ FlipRoute.POST cryptoLo (initState 1000) 2000 Side.cat "s" "c"
        = (initState 1000, PostOutcome.failure 400 "Insufficient balance") :=
  C3_insufficient_balance_no_mutation cryptoLo (initState 1000) 2000 BetType.over 50 Side.cat
    "s" "h" "c" (by norm_num) (by norm_num [initState])

/-- Two-decimal rounding fixes 80. -/
theorem round2_80 : round2 (80 : ℚ) = 80 := by
  calc round2 (80 : ℚ) = ((8000 : ℤ) : ℚ) / 100 :=
        round2_eq (show ((8000 : ℤ) : ℚ) ≤ 80 * 100 + 1/2 by norm_num) (by norm_num)
    _ = 80 := by norm_num

/-- Two-decimal rounding fixes 40. -/
theorem round2_40 : round2 (40 : ℚ) = 40 := by
  calc round2 (40 : ℚ) = ((4000 : ℤ) : ℚ) / 100 :=
        round2_eq (show ((4000 : ℤ) : ℚ) ≤ 40 * 100 + 1/2 by norm_num) (by norm_num)
    _ = 40 := by norm_num

/-- Two-decimal rounding fixes any integer-valued rational. -/
theorem round2_int (n : ℤ) : round2 (n : ℚ) = n := by
  calc round2 (n : ℚ) = ((n * 100 : ℤ) : ℚ) / 100 :=
        round2_eq (by push_cast; linarith) (by push_cast; linarith)
    _ = n := by push_cast; ring

/-- Two-decimal rounding fixes 0. -/
theorem round2_0 : round2 (0 : ℚ) = 0 := by
  calc round2 (0 : ℚ) = ((0 : ℤ) : ℚ) / 100 :=
        round2_eq (show ((0 : ℤ) : ℚ) ≤ 0 * 100 + 1/2 by norm_num) (by norm_num)
    _ = 0 := by norm_num

/-- Two-decimal rounding fixes 100. -/
theorem round2_100 : round2 (100 : ℚ) = 100 := by
  calc round2 (100 : ℚ) = ((10000 : ℤ) : ℚ) / 100 :=
        round2_eq (show ((10000 : ℤ) : ℚ) ≤ 100 * 100 + 1/2 by norm_num) (by norm_num)
    _ = 100 := by norm_num

/-- Two-decimal rounding fixes 198. -/
theorem round2_198 : round2 (198 : ℚ) = 198 := by
  calc round2 (198 : ℚ) = ((19800 : ℤ) : ℚ) / 100 :=
        round2_eq (show ((19800 : ℤ) : ℚ) ≤ 198 * 100 + 1/2 by norm_num) (by norm_num)
    _ = 198 := by norm_num

/-- Two-decimal rounding fixes 450. -/
theorem round2_450 : round2 (450 : ℚ) = 450 := by
  calc round2 (450 : ℚ) = ((45000 : ℤ) : ℚ) / 100 :=
        round2_eq (show ((45000 : ℤ) : ℚ) ≤ 450 * 100 + 1/2 by norm_num) (by norm_num)
    _ = 450 := by norm_num

/-- Two-decimal rounding fixes 550. -/
theorem round2_550 : round2 (550 : ℚ) = 550 := by
  calc round2 (550 : ℚ) = ((55000 : ℤ) : ℚ) / 100 :=
        round2_eq (show ((55000 : ℤ) : ℚ) ≤ 550 * 100 + 1/2 by norm_num) (by norm_num)
    _ = 550 := by norm_num

/-- Two-decimal rounding fixes 900. -/
theorem round2_900 : round2 (900 : ℚ) = 900 := by
  calc round2 (900 : ℚ) = ((90000 : ℤ) : ℚ) / 100 :=
        round2_eq (show ((90000 : ℤ) : ℚ) ≤ 900 * 100 + 1/2 by norm_num) (by norm_num)
    _ = 900 := by norm_num

/-- Two-decimal rounding fixes 1098. -/
theorem round2_1098 : round2 (1098 : ℚ) = 1098 := by
  calc round2 (1098 : ℚ) = ((109800 : ℤ) : ℚ) / 100 :=
        round2_eq (show ((109800 : ℤ) : ℚ) ≤ 1098 * 100 + 1/2 by norm_num) (by norm_num)
    _ = 1098 := by norm_num

/-- Dice settlement under `cryptoHi` on the spec's example bet: the roll is
80, the bet wins, payout 198, committed balance 1098, nonce 1. -/
theorem dicePost_win_eval :
    DiceRoute.POST cryptoHi (initState 1000) 100 BetType.over 50 "s" "c" =
      ({ balance := 1098
         sessionNonce := some 1
         bets := [{ gameType := GameType.dice, amount := 100, multiplier := 1.98,
                    win := true, payout := 198, serverSeed := "s",
                    serverSeedHash := "h-s", clientSeed := "c", nonce := 1,
                    result := 80 }] },
       PostOutcome.success { roll := 80, win := true, payout := 198, newBalance := 1098,
                             serverSeedHash := "h-s", clientSeed := "c", nonce := 1 }) := by
  have hv : (ProvablyFair.validateDiceBet 100 BetType.over 50 (initState 1000).balance).valid
      = true := by
    norm_num [ProvablyFair.validateDiceBet, ProvablyFair.calculateDiceWinChance, initState,
      min_def, max_def]
  have hb : ¬ (initState 1000).balance < 100 := by norm_num [initState]
  have hwc : ProvablyFair.calculateDiceWinChance BetType.over 50 = 50 := by
    norm_num [ProvablyFair.calculateDiceWinChance, min_def, max_def]
  have hm : ProvablyFair.calculateMultiplier 50 ProvablyFair.houseEdgeDefault = 1.98 := by
    rw [ProvablyFair.calculateMultiplier, ProvablyFair.houseEdgeDefault,
      if_neg (by norm_num : ¬ (50:ℚ) ≤ 0)]
    norm_num
  have hroll : ProvablyFair.generateDiceRoll cryptoHi "s" "c" 1 = 80 :=
    generateGameResult_cryptoHi "s" "c" 1
  have hwin : ProvablyFair.isDiceWin 80 BetType.over 50 = true := by
    simp only [ProvablyFair.isDiceWin, decide_eq_true_eq]
    norm_num
  have hsha : cryptoHi.sha256Hex "s" = "h-s" := rfl
  rw [DiceRoute.dice_post_success cryptoHi (initState 1000) 100 BetType.over 50 "s" "c" hv hb]
  simp only [initState, DbState.sessNonce, Option.getD_none, Nat.zero_add]
  rw [hroll, hwc, hm, hwin, hsha]
  norm_num [round2_80, round2_198, round2_1098]

/-- Dice settlement under `cryptoLo` on the spec's example bet: the roll is
40, the bet loses, payout 0, committed balance 900, nonce 1. -/
theorem dicePost_lose_eval :
    DiceRoute.POST cryptoLo (initState 1000) 100 BetType.over 50 "s" "c" =
      ({ balance := 900
         sessionNonce := some 1
         bets := [{ gameType := GameType.dice, amount := 100, multiplier := 1.98,
                    win := false, payout := 0, serverSeed := "s",
                    serverSeedHash := "h-s", clientSeed := "c", nonce := 1,
                    result := 40 }] },
       PostOutcome.success { roll := 40, win := false, payout := 0, newBalance := 900,
                             serverSeedHash := "h-s", clientSeed := "c", nonce := 1 }) := by
  have hv : (ProvablyFair.validateDiceBet 100 BetType.over 50 (initState 1000).balance).valid
      = true := by
    norm_num [ProvablyFair.validateDiceBet, ProvablyFair.calculateDiceWinChance, initState,
      min_def, max_def]
  have hb : ¬ (initState 1000).balance < 100 := by norm_num [initState]
  have hwc : ProvablyFair.calculateDiceWinChance BetType.over 50 = 50 := by
    norm_num [ProvablyFair.calculateDiceWinChance, min_def, max_def]
  have hm : ProvablyFair.calculateMultiplier 50 ProvablyFair.houseEdgeDefault = 1.98 := by
    rw [ProvablyFair.calculateMultiplier, ProvablyFair.houseEdgeDefault,
      if_neg (by norm_num : ¬ (50:ℚ) ≤ 0)]
    norm_num
  have hroll : ProvablyFair.generateDiceRoll cryptoLo "s" "c" 1 = 40 :=
    generateGameResult_cryptoLo "s" "c" 1
  have hwin : ProvablyFair.isDiceWin 40 BetType.over 50 = false := by
    simp only [ProvablyFair.isDiceWin, decide_eq_false_iff_not]
    norm_num
  have hsha : cryptoLo.sha256Hex "s" = "h-s" := rfl
  rw [DiceRoute.dice_post_success cryptoLo (initState 1000) 100 BetType.over 50 "s" "c" hv hb]
  simp only [initState, DbState.sessNonce, Option.getD_none, Nat.zero_add]
  rw [hroll, hwc, hm, hwin, hsha]
  norm_num [round2_40, round2_0, round2_900]

/-- Flip settlement under `cryptoLo` on the spec's example bet: the raw
outcome 40 maps to cat, the cat bet wins, payout 100, committed balance 550,
nonce 1. -/
theorem flipPost_win_eval :
    FlipRoute.POST cryptoLo (initState 500) 50 Side.cat "s" "c" =
      ({ balance := 550
         sessionNonce := some 1
         bets := [{ gameType := GameType.flip, amount := 50, multiplier := 2,
                    win := true, payout := 100, serverSeed := "s",
                    serverSeedHash := "h-s", clientSeed := "c", nonce := 1,
                    result := 0 }] },
       PostOutcome.success { flipResult := Side.cat, win := true, payout := 100,
                             newBalance := 550, serverSeedHash := "h-s", clientSeed := "c",
                             nonce := 1 }) := by
  have hv : (ProvablyFair.validateCoinFlipBet 50 Side.cat (initState 500).balance).valid
      = true := by
    norm_num [ProvablyFair.validateCoinFlipBet, initState]
  have hb : ¬ (initState 500).balance < 50 := by norm_num [initState]
  have hflip : ProvablyFair.generateCoinFlip cryptoLo "s" "c" 1 = 0 := by
    unfold ProvablyFair.generateCoinFlip
    rw [generateGameResult_cryptoLo]
    norm_num
  have hwin : ProvablyFair.isCoinFlipWin 0 Side.cat = true := rfl
  have hm : ProvablyFair.calculateMultiplier (49.5 : ℚ) ProvablyFair.houseEdgeDefault = 2 := by
    rw [ProvablyFair.calculateMultiplier, ProvablyFair.houseEdgeDefault,
      if_neg (by norm_num : ¬ (49.5:ℚ) ≤ 0)]
    norm_num
  have hsha : cryptoLo.sha256Hex "s" = "h-s" := rfl
  rw [FlipRoute.flip_post_success cryptoLo (initState 500) 50 Side.cat "s" "c" hv hb]
  simp only [initState, DbState.sessNonce, Option.getD_none, Nat.zero_add]
  rw [hflip, hwin, hm, hsha]
  norm_num [round2_100, round2_550]

/-- Flip settlement under `cryptoHi` on the spec's example bet: the raw
outcome 80 maps to dog, the cat bet loses, payout 0, committed balance 450,
nonce 1, and the 0/1 flip value 1 is stored in `result`. -/
theorem flipPost_lose_eval :
    FlipRoute.POST cryptoHi (initState 500) 50 Side.cat "s" "c" =
      ({ balance := 450
         sessionNonce := some 1
         bets := [{ gameType := GameType.flip, amount := 50, multiplier := 2,
                    win := false, payout := 0, serverSeed := "s",
                    serverSeedHash := "h-s", clientSeed := "c", nonce := 1,
                    result := 1 }] },
       PostOutcome.success { flipResult := Side.dog, win := false, payout := 0,
                             newBalance := 450, serverSeedHash := "h-s", clientSeed := "c",
                             nonce := 1 }) := by
  have hv : (ProvablyFair.validateCoinFlipBet 50 Side.cat (initState 500).balance).valid
      = true := by
    norm_num [ProvablyFair.validateCoinFlipBet, initState]
  have hb : ¬ (initState 500).balance < 50 := by norm_num [initState]
  have hflip : ProvablyFair.generateCoinFlip cryptoHi "s" "c" 1 = 1 := by
    unfold ProvablyFair.generateCoinFlip
    rw [generateGameResult_cryptoHi]
    norm_num
  have hwin : ProvablyFair.isCoinFlipWin 1 Side.cat = false := rfl
  have hm : ProvablyFair.calculateMultiplier (49.5 : ℚ) ProvablyFair.houseEdgeDefault = 2 := by
    rw [ProvablyFair.calculateMultiplier, ProvablyFair.houseEdgeDefault,
      if_neg (by norm_num : ¬ (49.5:ℚ) ≤ 0)]
    norm_num
  have hsha : cryptoHi.sha256Hex "s" = "h-s" := rfl
  rw [FlipRoute.flip_post_success cryptoHi (initState 500) 50 Side.cat "s" "c" hv hb]
  simp only [initState, DbState.sessNonce, Option.getD_none, Nat.zero_add]
  rw [hflip, hwin, hm, hsha]
  norm_num [round2_0, round2_450]

/-- C6: a dice bet wins exactly when (over and roll above target) or (under
and roll below target); for the spec's example (amount 100, over, target 50,
balance 1000) the win chance is 50 and the multiplier 1.98, and the committed
settlement yields payout 198 and balance 1098 on a win (roll 80 > 50) and
payout 0 and balance 900 on a loss (roll 40). -/
theorem C6_dice_settlement_math :
    (∀ (roll t : ℚ) (bt : BetType),
        ProvablyFair.isDiceWin roll bt t = true ↔
          (bt = BetType.over ∧ roll > t) ∨ (bt = BetType.under ∧ roll < t))
    ∧ ProvablyFair.calculateDiceWinChance BetType.over 50 = 50
    ∧ ProvablyFair.calculateMultiplier 50 ProvablyFair.houseEdgeDefault = 1.98
    ∧ DiceRoute.POST cryptoHi (initState 1000) 100 BetType.over 50 "s" "c" =
        ({ balance := 1098
           sessionNonce := some 1
           bets := [{ gameType := GameType.dice, amount := 100, multiplier := 1.98,
                      win := true, payout := 198, serverSeed := "s",
                      serverSeedHash := "h-s", clientSeed := "c", nonce := 1,
                      result := 80 }] },
         PostOutcome.success { roll := 80, win := true, payout := 198, newBalance := 1098,
                               serverSeedHash := "h-s", clientSeed := "c", nonce := 1 })
    ∧ DiceRoute.POST cryptoLo (initState 1000) 100 BetType.over 50 "s" "c" =
        ({ balance := 900
           sessionNonce := some 1
           bets := [{ gameType := GameType.dice, amount := 100, multiplier := 1.98,
                      win := false, payout := 0, serverSeed := "s",
                      serverSeedHash := "h-s", clientSeed := "c", nonce := 1,
                      result := 40 }] },
         PostOutcome.success { roll := 40, win := false, payout := 0, newBalance := 900,
                               serverSeedHash := "h-s", clientSeed := "c", nonce := 1 }) := by
  refine ⟨?_, ?_, ?_, dicePost_win_eval, dicePost_lose_eval⟩
  · intro roll t bt
    cases bt <;> simp [ProvablyFair.isDiceWin]
  · norm_num [ProvablyFair.calculateDiceWinChance, min_def, max_def]
  · rw [ProvablyFair.calculateMultiplier, ProvablyFair.houseEdgeDefault,
      if_neg (by norm_num : ¬ (50:ℚ) ≤ 0)]
    norm_num

/-- C8: the flip maps a derived result below 50 to 0 (cat) and at least 50 to
1 (dog); the bet wins exactly when the chosen side's value equals the flip
value; the fixed win chance 49.5 gives multiplier 2; and for the spec's
example (amount 50, side cat, balance 500) the committed settlement yields
payout 100 and balance 550 on a win and balance 450 on a loss. -/
theorem C8_flip_semantics :
    (∀ (cr : CryptoPrim) (ss cs : String) (n : Nat),
        (ProvablyFair.generateGameResult cr ss cs n < 50 →
          ProvablyFair.generateCoinFlip cr ss cs n = 0)
        ∧ (50 ≤ ProvablyFair.generateGameResult cr ss cs n →
          ProvablyFair.generateCoinFlip cr ss cs n = 1))
    ∧ (∀ res : Nat,
        (ProvablyFair.isCoinFlipWin res Side.cat = true ↔ res = 0)
        ∧ (ProvablyFair.isCoinFlipWin res Side.dog = true ↔ res = 1))
    ∧ ProvablyFair.calculateMultiplier (49.5 : ℚ) ProvablyFair.houseEdgeDefault = 2
    ∧ FlipRoute.POST cryptoLo (initState 500) 50 Side.cat "s" "c" =
        ({ balance := 550
           sessionNonce := some 1
           bets := [{ gameType := GameType.flip, amount := 50, multiplier := 2,
                      win := true, payout := 100, serverSeed := "s",
                      serverSeedHash := "h-s", clientSeed := "c", nonce := 1,
                      result := 0 }] },
         PostOutcome.success { flipResult := Side.cat, win := true, payout := 100,
                               newBalance := 550, serverSeedHash := "h-s", clientSeed := "c",
                               nonce := 1 })
    ∧ FlipRoute.POST cryptoHi (initState 500) 50 Side.cat "s" "c" =
        ({ balance := 450
           sessionNonce := some 1
           bets := [{ gameType := GameType.flip, amount := 50, multiplier := 2,
                      win := false, payout := 0, serverSeed := "s",
                      serverSeedHash := "h-s", clientSeed := "c", nonce := 1,
                      result := 1 }] },
         PostOutcome.success { flipResult := Side.dog, win := false, payout := 0,
                               newBalance := 450, serverSeedHash := "h-s", clientSeed := "c",
                               nonce := 1 }) := by
  refine ⟨?_, ?_, ?_, flipPost_win_eval, flipPost_lose_eval⟩
  · intro cr ss cs n
    constructor
    · intro hlt
      unfold ProvablyFair.generateCoinFlip
      rw [if_pos hlt]
    · intro hge
      unfold ProvablyFair.generateCoinFlip
      rw [if_neg (not_lt.mpr hge)]
  · intro res
    constructor <;> simp [ProvablyFair.isCoinFlipWin]
  · rw [ProvablyFair.calculateMultiplier, ProvablyFair.houseEdgeDefault,
      if_neg (by norm_num : ¬ (49.5:ℚ) ≤ 0)]
    norm_num

/-- Witness for C8 at concrete inputs: under `cryptoLo` the raw outcome 40 is
below 50 and the flip value is 0; under `cryptoHi` the raw outcome 80 is at
least 50 and the flip value is 1. -/
theorem C8_flip_semantics_witness :
    ProvablyFair.generateCoinFlip cryptoLo "s" "c" 1 = 0
    ∧ ProvablyFair.generateCoinFlip cryptoHi "s" "c" 1 = 1
    ∧ ProvablyFair.isCoinFlipWin 0 Side.cat = true := by
  refine ⟨?_, ?_, ?_⟩
  · exact (C8_flip_semantics.1 cryptoLo "s" "c" 1).1
      (by rw [generateGameResult_cryptoLo]; norm_num)
  · exact (C8_flip_semantics.1 cryptoHi "s" "c" 1).2
      (by rw [generateGameResult_cryptoHi]; norm_num)
  · exact (C8_flip_semantics.2.1 0).1.mpr rfl

/-- C1 (code bug): a successfully committed coin-flip settlement stores the
0/1 flip value in the bet's `result` column, but the verification endpoint's
matches-stored check (`verifyGameResult`) recomputes the raw outcome in
[0, 99.99] and compares it with that stored 0/1 value within epsilon 0.01.
Under a crypto instance whose derived raw outcome is 80, the settled flip bet
stores result 1 (dog); its seed-hash check succeeds, yet `verifyGameResult`
— and therefore the endpoint's `verified` flag — is false, refuting the
round-trip property for flip bets (it does hold for dice bets, whose stored
result is the raw outcome itself). -/
theorem C1_flip_roundtrip_verification_fails :
    FlipRoute.POST cryptoHi (initState 500) 50 Side.cat "s" "c" =
      ({ balance := 450
         sessionNonce := some 1
         bets := [{ gameType := GameType.flip, amount := 50, multiplier := 2,
                    win := false, payout := 0, serverSeed := "s",
                    serverSeedHash := "h-s", clientSeed := "c", nonce := 1,
                    result := 1 }] },
       PostOutcome.success { flipResult := Side.dog, win := false, payout := 0,
                             newBalance := 450, serverSeedHash := "h-s", clientSeed := "c",
                             nonce := 1 })
    ∧ ProvablyFair.verifyServerSeed cryptoHi "s" "h-s" = true
    ∧ ProvablyFair.verifyGameResult cryptoHi "s" "c" 1 1 = false
    ∧ (VerifyRoute.verifyBet cryptoHi
        { gameType := GameType.flip, amount := 50, multiplier := 2, win := false, payout := 0,
          serverSeed := "s", serverSeedHash := "h-s", clientSeed := "c", nonce := 1,
          result := 1 }).seedHashValid = true
    ∧ (VerifyRoute.verifyBet cryptoHi
        { gameType := GameType.flip, amount := 50, multiplier := 2, win := false, payout := 0,
          serverSeed := "s", serverSeedHash := "h-s", clientSeed := "c", nonce := 1,
          result := 1 }).verified = false := by
  have hvg : ProvablyFair.verifyGameResult cryptoHi "s" "c" 1 1 = false := by
    unfold ProvablyFair.verifyGameResult
    rw [generateGameResult_cryptoHi]
    simp only [decide_eq_false_iff_not, not_lt]
    rw [show (80:ℚ) - 1 = 79 by norm_num, abs_of_nonneg (by norm_num : (0:ℚ) ≤ 79)]
    norm_num
  refine ⟨flipPost_lose_eval, rfl, hvg, rfl, ?_⟩
  unfold VerifyRoute.verifyBet
  dsimp only
  rw [hvg]
  simp

/-- C4: in every state reachable from a fresh principal the nonces of the
committed bet records are, in order, exactly 1, 2, ..., currentNonce — a
strictly increasing contiguous sequence starting at 1 with no gaps and no
duplicates — and every successful settlement (dice or flip) uses
currentNonce + 1 as its nonce, persisting the advanced counter together with
the new bet record in the same transaction (the counter row is created
zero-initialized on first use, so the first nonce is 1). -/
theorem C4_nonce_invariant (b0 : ℚ) (st : DbState) (h : Reach (initState b0) st) :
    st.bets.map BetRecord.nonce = (List.range st.sessNonce).map (· + 1)
    ∧ List.Pairwise (· < ·) (st.bets.map BetRecord.nonce)
    ∧ (st.bets.map BetRecord.nonce).Nodup
    ∧ (∀ (cr : CryptoPrim) (a : ℚ) (bt : BetType) (t : ℚ) (ss cs : String)
        (st' : DbState) (r : DiceResponse),
        DiceRoute.POST cr st a bt t ss cs = (st', PostOutcome.success r) →
          r.nonce = st.sessNonce + 1 ∧ st'.sessionNonce = some (st.sessNonce + 1)
          ∧ st'.bets.map BetRecord.nonce = st.bets.map BetRecord.nonce ++ [st.sessNonce + 1])
    ∧ (∀ (cr : CryptoPrim) (a : ℚ) (sd : Side) (ss cs : String)
        (st' : DbState) (r : FlipResponse),
        FlipRoute.POST cr st a sd ss cs = (st', PostOutcome.success r) →
          r.nonce = st.sessNonce + 1 ∧ st'.sessionNonce = some (st.sessNonce + 1)
          ∧ st'.bets.map BetRecord.nonce = st.bets.map BetRecord.nonce ++ [st.sessNonce + 1]) := by
  have hinv : st.bets.map BetRecord.nonce = (List.range st.sessNonce).map (· + 1) :=
    reach_nonceInv h
  have hpair : List.Pairwise (· < ·) (st.bets.map BetRecord.nonce) := by
    rw [hinv]
    exact (List.pairwise_lt_range _).map (· + 1) (fun _ _ hab => Nat.add_lt_add_right hab 1)
  refine ⟨hinv, hpair, hpair.imp ne_of_lt, ?_, ?_⟩
  · intro cr a bt t ss cs st' r hp
    obtain ⟨bet, -, -, -, -, -, hbn, hrn, hst⟩ := DiceRoute.dice_post_success_inv hp
    subst hst
    refine ⟨hrn, rfl, ?_⟩
    simp [hbn]
  · intro cr a sd ss cs st' r hp
    obtain ⟨bet, -, -, -, -, -, hbn, hrn, hst⟩ := FlipRoute.flip_post_success_inv hp
    subst hst
    refine ⟨hrn, rfl, ?_⟩
    simp [hbn]

/-- Witness for C4: from a fresh principal the bet list carries no nonces
(matching counter 0), and the concrete winning dice settlement commits the
single nonce 1. -/
theorem C4_nonce_invariant_witness :
    (initState 1000).bets.map BetRecord.nonce
        = (List.range (initState 1000).sessNonce).map (· + 1)
    ∧ (DiceRoute.POST cryptoHi (initState 1000) 100 BetType.over 50 "s" "c").1.bets.map
        BetRecord.nonce = [1] := by
  have hc := C4_nonce_invariant 1000 (initState 1000) Relation.ReflTransGen.refl
  have hi := hc.2.2.2.1 cryptoHi 100 BetType.over 50 "s" "c" _ _ dicePost_win_eval
  refine ⟨hc.1, ?_⟩
  rw [dicePost_win_eval]
  exact hi.2.2.trans rfl

/-- C5: in every state reachable from a fresh principal with nonnegative
starting balance the committed balance is nonnegative, and every successful
settlement (dice or flip) commits exactly
`newBalance = balance + payout - amount`, which is nonnegative because the
in-transaction check guaranteed `amount ≤ balance` and the payout is
nonnegative. -/
theorem C5_balance_invariant (b0 : ℚ) (st : DbState) (h0 : 0 ≤ b0)
    (h : Reach (initState b0) st) :
    0 ≤ st.balance
    ∧ (∀ (cr : CryptoPrim) (a : ℚ) (bt : BetType) (t : ℚ) (ss cs : String)
        (st' : DbState) (r : DiceResponse),
        DiceRoute.POST cr st a bt t ss cs = (st', PostOutcome.success r) →
          ∃ bet : BetRecord, st'.bets = st.bets ++ [bet] ∧ bet.amount = a ∧ 0 ≤ bet.payout
            ∧ st'.balance = st.balance + bet.payout - bet.amount ∧ 0 ≤ st'.balance)
    ∧ (∀ (cr : CryptoPrim) (a : ℚ) (sd : Side) (ss cs : String)
        (st' : DbState) (r : FlipResponse),
        FlipRoute.POST cr st a sd ss cs = (st', PostOutcome.success r) →
          ∃ bet : BetRecord, st'.bets = st.bets ++ [bet] ∧ bet.amount = a ∧ 0 ≤ bet.payout
            ∧ st'.balance = st.balance + bet.payout - bet.amount ∧ 0 ≤ st'.balance) := by
  refine ⟨reach_balance h0 h, ?_, ?_⟩
  · intro cr a bt t ss cs st' r hp
    obtain ⟨bet, -, hble, hamt, -, hpay, -, -, hst⟩ := DiceRoute.dice_post_success_inv hp
    subst hst
    push_neg at hble
    refine ⟨bet, rfl, hamt, hpay, by dsimp only; ring, ?_⟩
    dsimp only
    rw [hamt]
    linarith [hble, hpay]
  · intro cr a sd ss cs st' r hp
    obtain ⟨bet, -, hble, hamt, -, hpay, -, -, hst⟩ := FlipRoute.flip_post_success_inv hp
    subst hst
    push_neg at hble
    refine ⟨bet, rfl, hamt, hpay, by dsimp only; ring, ?_⟩
    dsimp only
    rw [hamt]
    linarith [hble, hpay]

/-- Witness for C5: a fresh balance of 1000 is nonnegative, and the concrete
winning dice settlement commits balance 1000 + 198 - 100 = 1098 ≥ 0. -/
theorem C5_balance_invariant_witness :
    0 ≤ (initState 1000).balance
    ∧ ∃ bet : BetRecord,
        (DiceRoute.POST cryptoHi (initState 1000) 100 BetType.over 50 "s" "c").1.bets
          = (initState 1000).bets ++ [bet]
        ∧ bet.amount = 100 ∧ 0 ≤ bet.payout
        ∧ (DiceRoute.POST cryptoHi (initState 1000) 100 BetType.over 50 "s" "c").1.balance
          = (initState 1000).balance + bet.payout - bet.amount
        ∧ 0 ≤ (DiceRoute.POST cryptoHi (initState 1000) 100 BetType.over 50 "s" "c").1.balance := by
  have hc := C5_balance_invariant 1000 (initState 1000) (by norm_num) Relation.ReflTransGen.refl
  have hi := hc.2.1 cryptoHi 100 BetType.over 50 "s" "c" _ _ dicePost_win_eval
  rw [dicePost_win_eval]
  exact ⟨hc.1, hi⟩

/-- Witness for C2 at a concrete seed triple: the derived outcome under
`cryptoHi` is within range and the parsed digest prefix fits in 32 bits. -/
theorem C2_deriveOutcome_algorithm_and_range_witness :
    parseFirst8Hex (cryptoHi.hmacSha256Hex "s" ("c" ++ "-" ++ toString 1)) < 2 ^ 32
    ∧ 0 ≤ ProvablyFair.generateGameResult cryptoHi "s" "c" 1
    ∧ ProvablyFair.generateGameResult cryptoHi "s" "c" 1 ≤ 99.99 :=
  ⟨(C2_deriveOutcome_algorithm_and_range cryptoHi "s" "c" 1).2.1,
   (C2_deriveOutcome_algorithm_and_range cryptoHi "s" "c" 1).2.2.1,
   (C2_deriveOutcome_algorithm_and_range cryptoHi "s" "c" 1).2.2.2.1⟩

/-- Witness for C6 at a concrete roll: 80 over target 50 is a win. -/
theorem C6_dice_settlement_math_witness :
    ProvablyFair.isDiceWin 80 BetType.over 50 = true :=
  (C6_dice_settlement_math.1 80 50 BetType.over).mpr (Or.inl ⟨rfl, by norm_num⟩)

/-- Witness for the amended C9 at the concrete win chance 98 (where the
original exact-equality claim fails). -/
theorem C9_client_multiplier_is_rounded_server_witness :
    GameUtils.calculateMultiplier 98 =
      round4 (ProvablyFair.calculateMultiplier 98 ProvablyFair.houseEdgeDefault) :=
  (C9_client_multiplier_is_rounded_server 98).1
